import Mathlib

/-!
# Shallow embedding of the ducklake snapshot-versioned catalog engine

This file embeds the catalog engine of `ducklake-core` (and its near-duplicate
`duckpond-core`) in Lean: the relational catalog state, the read and write
queries, the `SnapshotContext` allocator, the three catalog operations
(`create_schema_tx`, `create_table_tx`, `insert_data_file_tx`), the
`TimeTravel` view, and the `Lakehouse.read_from_table` read path.

Modelling conventions:
* Rust `i64` is modelled as `Int` (the claims under study never approach the
  64-bit boundary, so wrap-around is not modelled).
* The relational store is a record of row lists; a SQL `INSERT` appends a row
  at the end of the corresponding list, matching insertion order.
* The Rust code reads `.sql` files via `include_str!` from a `queries/`
  directory that is not part of the sources at hand; every definition whose
  semantics lives in such a missing `.sql` file is marked
  `Modelled from the spec:` in its doc comment and follows the spec's words.
* Environment-supplied values that no claim depends on (the `uuid` columns
  filled from `Uuid::new_v4()` and the `snapshot_time` column filled from
  `Utc::now()`) are omitted from the row types, as are row columns that no
  query in the sources ever writes or reads (`initial_default`,
  `default_value`, `parent_column`, `file_order`, `partition_id`,
  `encryption_key`, `partial_file_info`).
* In the Rust code, `create_schema_tx` / `create_table_tx` /
  `insert_data_file_tx` receive a `tx: &mut Transaction` argument but every
  `ReadQueries`/`WriteQueries` call inside them executes against
  `&self.pool`, not against `tx`; each write is therefore applied to the
  shared store immediately, which the embedding mirrors by threading the
  store state through each write in program order.
-/

/-- `ducklake_snapshot` row (models.rs `Snapshot`, minus the audit-only
`snapshot_time` column). -/
structure SnapshotRow where
  snapshot_id : Int
  schema_version : Int
  next_catalog_id : Int
  next_file_id : Int
  deriving Repr, DecidableEq

/-- `ducklake_schema` row (models.rs `Schema`, minus `schema_uuid`). -/
structure SchemaRow where
  schema_id : Int
  begin_snapshot : Int
  end_snapshot : Option Int
  schema_name : String
  deriving Repr, DecidableEq

/-- `ducklake_table` row (models.rs `Table`, minus `table_uuid`). -/
structure TableRow where
  table_id : Int
  begin_snapshot : Int
  end_snapshot : Option Int
  schema_id : Int
  table_name : String
  deriving Repr, DecidableEq

/-- `ducklake_column` row (models.rs `Column`, restricted to the columns the
queries in the sources write and read). -/
structure ColumnRow where
  column_id : Int
  begin_snapshot : Int
  end_snapshot : Option Int
  table_id : Int
  column_order : Int
  column_name : String
  column_type : String
  nulls_allowed : Bool
  deriving Repr, DecidableEq

/-- `ducklake_data_file` row (models.rs `DataFile`, restricted to the columns
the queries in the sources write and read). -/
structure DataFileRow where
  data_file_id : Int
  table_id : Int
  begin_snapshot : Int
  end_snapshot : Option Int
  path : String
  path_is_relative : Bool
  file_format : String
  record_count : Int
  file_size_bytes : Int
  footer_size : Option Int
  row_id_start : Int
  deriving Repr, DecidableEq

/-- `ducklake_table_stats` row (models.rs `TableStats`). -/
structure TableStatsRow where
  table_id : Int
  record_count : Int
  next_row_id : Int
  file_size_bytes : Int
  deriving Repr, DecidableEq

/-- File-level column statistics row (models.rs file column statistics;
`min_value`/`max_value` are nullable text, per §6 of the design). -/
structure FileColStatsRow where
  data_file_id : Int
  table_id : Int
  column_id : Int
  value_count : Int
  null_count : Int
  nan_count : Int
  min_value : Option String
  max_value : Option String
  deriving Repr, DecidableEq

/-- Table-level column statistics row (running aggregate across active
files). -/
structure TableColStatsRow where
  table_id : Int
  column_id : Int
  null_count : Int
  nan_count : Int
  min_value : Option String
  max_value : Option String
  deriving Repr, DecidableEq

/-- The relational catalog store: one list of rows per table of the persisted
catalog schema, plus the change-log table keyed by `snapshot_id`. -/
structure DB where
  snapshots : List SnapshotRow
  changelog : List (Int × String)
  schemas : List SchemaRow
  tables : List TableRow
  columns : List ColumnRow
  dataFiles : List DataFileRow
  tableStats : List TableStatsRow
  fileColStats : List FileColStatsRow
  tableColStats : List TableColStatsRow
  deriving Repr, DecidableEq

/-- The initially empty catalog. -/
def DB.empty : DB :=
  ⟨[], [], [], [], [], [], [], [], []⟩

/-- `ColumnDefinition` (ducklake.rs): column payload for table creation. -/
structure ColumnDefinition where
  column_id : Option Int
  name : String
  data_type : String
  nullable : Bool
  deriving Repr, DecidableEq

/-- `FileColumnStatistics` (ducklake.rs): file-level column statistics
supplied to `insert_data_file`. -/
structure FileColumnStatistics where
  column_id : Int
  value_count : Int
  null_count : Int
  nan_count : Int
  min_value : Option String
  max_value : Option String
  deriving Repr, DecidableEq

namespace ReadQueries

/-- `ReadQueries::get_max_snapshot_id`. Modelled from the spec: the SQL text
`get_max_snapshot_id.sql` is not in the sources; §4.1 specifies the maximum
existing `snapshot_id`, with the Rust caller defaulting to 0 when the store
holds no snapshot (`unwrap_or(0)`). -/
def get_max_snapshot_id (s : DB) : Int :=
  (s.snapshots.map (·.snapshot_id)).foldr max 0

/-- The snapshot row with maximal `snapshot_id` (ties resolved towards the
later row), used to read the watermarks recorded "on the most recent existing
Snapshot" (§4.1). -/
def latestSnapshot (s : DB) : Option SnapshotRow :=
  s.snapshots.foldl
    (fun acc r =>
      match acc with
      | none => some r
      | some a => if a.snapshot_id ≤ r.snapshot_id then some r else some a)
    none

/-- `ReadQueries::get_next_catalog_id`. Modelled from the spec: the SQL text
is not in the sources; §4.1 specifies "the `next_catalog_id` watermark
recorded on the most recent existing Snapshot", absent when no snapshot
exists. -/
def get_next_catalog_id (s : DB) : Option Int :=
  (latestSnapshot s).map (·.next_catalog_id)

/-- `ReadQueries::get_next_file_id`. Modelled from the spec: the SQL text is
not in the sources; §4.1, same pattern as `get_next_catalog_id`,
independently numbered. -/
def get_next_file_id (s : DB) : Option Int :=
  (latestSnapshot s).map (·.next_file_id)

/-- `ReadQueries::get_table_next_row_id`. Modelled from the spec: the SQL
text is not in the sources; §4.4 step 2 reads "the table's current
`next_row_id` roll-up", absent when the table has no `TableStats` row. -/
def get_table_next_row_id (s : DB) (table_id : Int) : Option Int :=
  (s.tableStats.find? (fun r => r.table_id == table_id)).map (·.next_row_id)

/-- Temporal validity test of §3/§8: entity with interval
`[begin_snapshot, end_snapshot)` is visible at snapshot `snap` iff
`begin_snapshot <= snap` and (`end_snapshot` is null or `snap <
end_snapshot`). -/
def activeAt (begin_snapshot : Int) (end_snapshot : Option Int)
    (snap : Int) : Bool :=
  begin_snapshot ≤ snap &&
    match end_snapshot with
    | none => true
    | some e => snap < e

/-- `ReadQueries::list_schemas`. Modelled from the spec: the SQL text is not
in the sources; §4.3 returns the schemas whose validity interval covers the
given snapshot. -/
def list_schemas (s : DB) (snapshot_id : Int) : List SchemaRow :=
  s.schemas.filter (fun r => activeAt r.begin_snapshot r.end_snapshot snapshot_id)

/-- `ReadQueries::list_tables`. Modelled from the spec: the SQL text is not
in the sources; §4.3 returns the tables of the given schema whose validity
interval covers the given snapshot. -/
def list_tables (s : DB) (schema_id snapshot_id : Int) : List TableRow :=
  s.tables.filter
    (fun r => r.schema_id == schema_id &&
      activeAt r.begin_snapshot r.end_snapshot snapshot_id)

/-- `ReadQueries::show_table_structure`. Modelled from the spec: the SQL text
is not in the sources; §4.3 returns the columns of the given table whose
validity interval covers the given snapshot, ordered by `column_order`. -/
def show_table_structure (s : DB) (table_id snapshot_id : Int) :
    List ColumnRow :=
  (s.columns.filter
      (fun r => r.table_id == table_id &&
        activeAt r.begin_snapshot r.end_snapshot snapshot_id)).mergeSort
    (fun a b => a.column_order ≤ b.column_order)

/-- `ReadQueries::list_data_files`. Modelled from the spec: the SQL text is
not in the sources; the data files of the given table whose validity interval
covers the given snapshot. -/
def list_data_files (s : DB) (table_id snapshot_id : Int) :
    List DataFileRow :=
  s.dataFiles.filter
    (fun r => r.table_id == table_id &&
      activeAt r.begin_snapshot r.end_snapshot snapshot_id)

/-- Interval test of the pruning engine on one file's statistic for the
probed column: `min_value <= value <= max_value` inclusive, over the stored
text values; a null bound constrains nothing. -/
def statContains (st : FileColStatsRow) (value : String) : Bool :=
  (match st.min_value with
   | none => true
   | some m => m ≤ value) &&
  (match st.max_value with
   | none => true
   | some M => value ≤ M)

/-- `ReadQueries::prune_files_by_column_stats`. Modelled from the spec: the
SQL text is not in the sources; §4.5 returns every active data file of the
table whose file-level statistic for the column satisfies
`min_value <= value <= max_value`, a file with no recorded statistic for that
column being conservatively included. -/
def prune_files_by_column_stats (s : DB) (table_id column_id : Int)
    (value : String) : List Int :=
  (s.dataFiles.filter
      (fun f => f.table_id == table_id && f.end_snapshot == none &&
        match s.fileColStats.find?
            (fun st => st.data_file_id == f.data_file_id &&
              st.column_id == column_id) with
        | none => true
        | some st => statContains st value)).map
    (·.data_file_id)

end ReadQueries

namespace WriteQueries

/-- `WriteQueries::create_snapshot`: INSERT one snapshot row. -/
def create_snapshot (s : DB) (snapshot_id schema_version next_catalog_id
    next_file_id : Int) : DB :=
  { s with snapshots := s.snapshots ++
      [⟨snapshot_id, schema_version, next_catalog_id, next_file_id⟩] }

/-- `WriteQueries::log_snapshot_changes`: INSERT one change-log entry. -/
def log_snapshot_changes (s : DB) (snapshot_id : Int) (changes : String) :
    DB :=
  { s with changelog := s.changelog ++ [(snapshot_id, changes)] }

/-- `WriteQueries::create_schema`: INSERT one schema row with null
`end_snapshot`. -/
def create_schema (s : DB) (schema_id begin_snapshot : Int)
    (schema_name : String) : DB :=
  { s with schemas := s.schemas ++
      [⟨schema_id, begin_snapshot, none, schema_name⟩] }

/-- `WriteQueries::create_table`: INSERT one table row with null
`end_snapshot`. -/
def create_table (s : DB) (table_id begin_snapshot schema_id : Int)
    (table_name : String) : DB :=
  { s with tables := s.tables ++
      [⟨table_id, begin_snapshot, none, schema_id, table_name⟩] }

/-- `WriteQueries::create_column`: INSERT one column row with null
`end_snapshot`. -/
def create_column (s : DB) (column_id begin_snapshot table_id
    column_order : Int) (column_name column_type : String)
    (nulls_allowed : Bool) : DB :=
  { s with columns := s.columns ++
      [⟨column_id, begin_snapshot, none, table_id, column_order,
        column_name, column_type, nulls_allowed⟩] }

/-- `WriteQueries::insert_data_file`: INSERT one data-file row with null
`end_snapshot`. -/
def insert_data_file (s : DB) (data_file_id table_id begin_snapshot : Int)
    (path : String) (path_is_relative : Bool) (file_format : String)
    (record_count file_size_bytes : Int) (footer_size : Option Int)
    (row_id_start : Int) : DB :=
  { s with dataFiles := s.dataFiles ++
      [⟨data_file_id, table_id, begin_snapshot, none, path,
        path_is_relative, file_format, record_count, file_size_bytes,
        footer_size, row_id_start⟩] }

/-- The row-level update of `update_table_stats` on the `ducklake_table_stats`
table: additive increments on the matching row, or a fresh row on a table's
first file registration. -/
def upsertTableStats (l : List TableStatsRow) (table_id record_count
    file_size_bytes : Int) : List TableStatsRow :=
  if l.any (fun r => r.table_id == table_id) then
    let upd := fun (r : TableStatsRow) =>
      if r.table_id == table_id then
        { r with record_count := r.record_count + record_count,
                 next_row_id := r.next_row_id + record_count,
                 file_size_bytes := r.file_size_bytes + file_size_bytes }
      else r
    l.map upd
  else
    l ++ [⟨table_id, record_count, record_count, file_size_bytes⟩]

/-- `WriteQueries::update_table_stats`. Modelled from the spec: the SQL text
is not in the sources; §4.4 step 4 updates the roll-up additively
(`record_count += recordCount`, `file_size_bytes += fileSizeBytes`,
`next_row_id += recordCount`), creating the row on a table's first file
registration. -/
def update_table_stats (s : DB) (table_id record_count file_size_bytes :
    Int) : DB :=
  { s with tableStats :=
      upsertTableStats s.tableStats table_id record_count file_size_bytes }

/-- Merge of one nullable minimum into the running table-level minimum (§4.4
step 5: `min_value = min(existing, new)`, existing treated as unset on first
write; a null incoming value leaves the aggregate unchanged). -/
def mergeMin (existing incoming : Option String) : Option String :=
  match existing, incoming with
  | none, v => v
  | v, none => v
  | some a, some b => some (min a b)

/-- Merge of one nullable maximum into the running table-level maximum (§4.4
step 5: `max_value = max(existing, new)`). -/
def mergeMax (existing incoming : Option String) : Option String :=
  match existing, incoming with
  | none, v => v
  | v, none => v
  | some a, some b => some (max a b)

/-- The row-level update of `update_table_column_stats` on the table-level
column-statistics table: additive counts and min/max merge on the matching
row, or a fresh row on the column's first statistic. -/
def upsertTableColStats (l : List TableColStatsRow) (table_id column_id
    null_count nan_count : Int) (min_value max_value : Option String) :
    List TableColStatsRow :=
  if l.any (fun r => r.table_id == table_id && r.column_id == column_id) then
    let upd := fun (r : TableColStatsRow) =>
      if r.table_id == table_id && r.column_id == column_id then
        { r with null_count := r.null_count + null_count,
                 nan_count := r.nan_count + nan_count,
                 min_value := mergeMin r.min_value min_value,
                 max_value := mergeMax r.max_value max_value }
      else r
    l.map upd
  else
    l ++ [⟨table_id, column_id, null_count, nan_count, min_value, max_value⟩]

/-- `WriteQueries::update_table_column_stats`. Modelled from the spec: the
SQL text is not in the sources; §4.4 step 5 merges one file-level statistic
into the table-level aggregate (`null_count += null_count`,
`nan_count += nan_count`, min of mins, max of maxes), creating the row on the
column's first statistic. -/
def update_table_column_stats (s : DB) (table_id column_id null_count
    nan_count : Int) (min_value max_value : Option String) : DB :=
  let l := upsertTableColStats s.tableColStats table_id column_id null_count
    nan_count min_value max_value
  { s with tableColStats := l }

/-- `WriteQueries::insert_file_column_stats`: INSERT one file-level column
statistics row. -/
def insert_file_column_stats (s : DB) (data_file_id table_id column_id
    value_count null_count nan_count : Int)
    (min_value max_value : Option String) : DB :=
  { s with fileColStats := s.fileColStats ++
      [⟨data_file_id, table_id, column_id, value_count, null_count,
        nan_count, min_value, max_value⟩] }

end WriteQueries

/-- `SnapshotContext` (ducklake.rs): provisional snapshot id, schema version
and id watermarks for one commit. -/
structure SnapshotContext where
  snapshot_id : Int
  schema_version : Int
  next_catalog_id : Int
  next_file_id : Int
  deriving Repr, DecidableEq

namespace SnapshotContext

/-- `SnapshotContext::new`: `snapshot_id` is 1 plus the maximum existing
snapshot id; the watermarks come from the most recent snapshot, defaulting to
1 (`unwrap_or(1)`); `schema_version` is the same simple increment as
`snapshot_id`. -/
def new (s : DB) : SnapshotContext :=
  let max_snapshot_id := ReadQueries.get_max_snapshot_id s
  { snapshot_id := max_snapshot_id + 1
    schema_version := max_snapshot_id + 1
    next_catalog_id := (ReadQueries.get_next_catalog_id s).getD 1
    next_file_id := (ReadQueries.get_next_file_id s).getD 1 }

/-- `SnapshotContext::commit_with_changes`: insert the Snapshot row carrying
the context's watermarks, then the change-log entry. -/
def commit_with_changes (ctx : SnapshotContext) (s : DB) (changes : String) :
    DB :=
  WriteQueries.log_snapshot_changes
    (WriteQueries.create_snapshot s ctx.snapshot_id ctx.schema_version
      ctx.next_catalog_id ctx.next_file_id)
    ctx.snapshot_id changes

end SnapshotContext

namespace DuckLake

/-- `DuckLake::create_schema_tx` (state effect): allocate a context, take the
catalog watermark as the schema id, insert the schema row, then commit the
snapshot and change-log rows. Note the context's `next_catalog_id` is not
advanced before the commit. Every write executes directly against the pool
(the `tx` argument of the Rust function is unused). -/
def create_schema_tx (s : DB) (schema_name : String) : DB :=
  let ctx := SnapshotContext.new s
  let schema_id := ctx.next_catalog_id
  let s := WriteQueries.create_schema s schema_id ctx.snapshot_id schema_name
  ctx.commit_with_changes s ("CREATE SCHEMA " ++ schema_name)

/-- `DuckLake::create_table_tx` (state effect): allocate a context, take the
catalog watermark as the table id and advance the context's watermark by one,
insert the table row, then one column row per definition — the column id is
the caller-supplied one or `index + 1` — then commit. Every write executes
directly against the pool (the `tx` argument of the Rust function is
unused). -/
def create_table_tx (s : DB) (schema_id : Int) (table_name : String)
    (columns : List ColumnDefinition) : DB :=
  let ctx := SnapshotContext.new s
  let table_id := ctx.next_catalog_id
  let ctx := { ctx with next_catalog_id := ctx.next_catalog_id + 1 }
  let s := WriteQueries.create_table s table_id ctx.snapshot_id schema_id
    table_name
  let s := columns.enum.foldl
    (fun acc p =>
      WriteQueries.create_column acc
        (p.2.column_id.getD ((p.1 : Int) + 1)) ctx.snapshot_id table_id
        (p.1 : Int) p.2.name p.2.data_type p.2.nullable)
    s
  ctx.commit_with_changes s ("CREATE TABLE " ++ table_name)

/-- The staged (pre-commit) portion of `DuckLake::insert_data_file_tx`:
allocate the context and file id, resolve `row_id_start` from the table's
roll-up, insert the data-file row (`path_is_relative = true`,
`file_format = "parquet"`, `footer_size = 4096`), update the table roll-up,
then per statistic insert the file-level row and merge the table-level
aggregate. Because the Rust function runs every one of these writes directly
against the pool (its `tx` argument is unused), this is exactly the store
state observable when a fault strikes after the statistics are staged but
before the Snapshot row insert. -/
def insert_data_file_staged (s : DB) (table_id : Int) (file_path : String)
    (record_count file_size_bytes : Int)
    (column_statistics : List FileColumnStatistics) : DB :=
  let ctx := SnapshotContext.new s
  let data_file_id := ctx.next_file_id
  let row_id_start := (ReadQueries.get_table_next_row_id s table_id).getD 0
  let s := WriteQueries.insert_data_file s data_file_id table_id
    ctx.snapshot_id file_path true "parquet" record_count file_size_bytes
    (some 4096) row_id_start
  let s := WriteQueries.update_table_stats s table_id record_count
    file_size_bytes
  column_statistics.foldl
    (fun acc st =>
      WriteQueries.update_table_column_stats
        (WriteQueries.insert_file_column_stats acc data_file_id table_id
          st.column_id st.value_count st.null_count st.nan_count
          st.min_value st.max_value)
        table_id st.column_id st.null_count st.nan_count st.min_value
        st.max_value)
    s

/-- `DuckLake::insert_data_file_tx` (state effect): the staged writes of
`insert_data_file_staged`, then the commit of the Snapshot row (with
`next_file_id` advanced by one) and the change-log entry. -/
def insert_data_file_tx (s : DB) (table_id : Int) (file_path : String)
    (record_count file_size_bytes : Int)
    (column_statistics : List FileColumnStatistics) : DB :=
  let ctx := SnapshotContext.new s
  let ctx := { ctx with next_file_id := ctx.next_file_id + 1 }
  let s1 := insert_data_file_staged s table_id file_path record_count
    file_size_bytes column_statistics
  ctx.commit_with_changes s1 ("INSERT DATA FILE " ++ file_path)

/-- `DuckLake::list_schemas_at_snapshot`. -/
def list_schemas_at_snapshot (s : DB) (snapshot_id : Int) : List SchemaRow :=
  ReadQueries.list_schemas s snapshot_id

/-- `DuckLake::list_tables_at_snapshot`. -/
def list_tables_at_snapshot (s : DB) (schema_id snapshot_id : Int) :
    List TableRow :=
  ReadQueries.list_tables s schema_id snapshot_id

/-- `DuckLake::table_structure_at_snapshot`. -/
def table_structure_at_snapshot (s : DB) (table_id snapshot_id : Int) :
    List ColumnRow :=
  ReadQueries.show_table_structure s table_id snapshot_id

/-- `DuckLake::list_data_files_at_snapshot`. -/
def list_data_files_at_snapshot (s : DB) (table_id snapshot_id : Int) :
    List DataFileRow :=
  ReadQueries.list_data_files s table_id snapshot_id

end DuckLake

/-- `TimeTravel` (ducklake.rs): a read-only handle holding nothing but the
bound snapshot id (the Rust struct additionally borrows the `DuckLake`
handle, i.e. the store connection, which in this embedding is the `DB`
argument each operation receives). -/
structure TimeTravel where
  snapshot_id : Int
  deriving Repr, DecidableEq

namespace TimeTravel

/-- `DuckLake::at_snapshot` / `TimeTravel::new`: construction is pure — it
performs no store access and records only the bound snapshot id. -/
def at_snapshot (snapshot_id : Int) : TimeTravel :=
  ⟨snapshot_id⟩

/-- `TimeTravel::list_schemas`: delegate at the bound snapshot id. -/
def list_schemas (tt : TimeTravel) (s : DB) : List SchemaRow :=
  DuckLake.list_schemas_at_snapshot s tt.snapshot_id

/-- `TimeTravel::list_tables`: delegate at the bound snapshot id. -/
def list_tables (tt : TimeTravel) (s : DB) (schema_id : Int) :
    List TableRow :=
  DuckLake.list_tables_at_snapshot s schema_id tt.snapshot_id

/-- `TimeTravel::table_structure`: delegate at the bound snapshot id. -/
def table_structure (tt : TimeTravel) (s : DB) (table_id : Int) :
    List ColumnRow :=
  DuckLake.table_structure_at_snapshot s table_id tt.snapshot_id

/-- `TimeTravel::list_data_files`: delegate at the bound snapshot id. -/
def list_data_files (tt : TimeTravel) (s : DB) (table_id : Int) :
    List DataFileRow :=
  DuckLake.list_data_files_at_snapshot s table_id tt.snapshot_id

end TimeTravel

/-- One catalog commit, as issued by the three write entry points of
`DuckLake`. -/
inductive CatalogOp where
  | createSchema (schema_name : String)
  | createTable (schema_id : Int) (table_name : String)
      (columns : List ColumnDefinition)
  | insertDataFile (table_id : Int) (file_path : String)
      (record_count file_size_bytes : Int)
      (column_statistics : List FileColumnStatistics)
  deriving Repr

/-- Apply one commit to the store. -/
def applyOp (s : DB) : CatalogOp → DB
  | .createSchema name => DuckLake.create_schema_tx s name
  | .createTable schema_id name cols =>
      DuckLake.create_table_tx s schema_id name cols
  | .insertDataFile table_id path rc fs stats =>
      DuckLake.insert_data_file_tx s table_id path rc fs stats

/-- Run a serialized sequence of commits. -/
def runOps (s : DB) (ops : List CatalogOp) : DB :=
  ops.foldl applyOp s

/-- The slice of `DataFileInfo` that `Lakehouse::read_from_table` consumes:
the file's path. -/
structure DataFileInfo where
  data_file_id : Int
  data_file_path : String
  deriving Repr, DecidableEq

namespace Lakehouse

/-- The per-file scan loop of `Lakehouse::read_from_table` (duckpond
lakehouse.rs): for each listed file, a successful `read_file` appends its
record batches to the accumulator; a failed one only logs a warning and is
skipped. `readFile` stands for `ParquetManager::read_file`, `β` for
`RecordBatch`. -/
def scan_files {ε β : Type} (readFile : String → Except ε (List β))
    (files : List DataFileInfo) : List β :=
  files.foldl
    (fun acc f =>
      match readFile f.data_file_path with
      | .ok batches => acc ++ batches
      | .error _ => acc)
    []

/-- `Lakehouse::read_from_table`, from the point where the table's file list
has been obtained: an empty file list short-circuits to `ok []`; otherwise
the scan loop runs and the operation returns `ok` with whatever batches were
read. -/
def read_from_table {ε β : Type} (readFile : String → Except ε (List β))
    (files : List DataFileInfo) : Except ε (List β) :=
  if files.isEmpty then .ok []
  else .ok (scan_files readFile files)

/-- The batches of exactly those files whose scan succeeded, in file order:
the reference value `read_from_table` is compared against. -/
def successBatches {ε β : Type} (readFile : String → Except ε (List β))
    (files : List DataFileInfo) : List β :=
  files.flatMap
    (fun f =>
      match readFile f.data_file_path with
      | .ok batches => batches
      | .error _ => [])

end Lakehouse

/-! Derived notions used to state and prove the claims. -/

/-- The catalog-id watermark a fresh commit starts from: the value recorded
on the most recent snapshot, 1 on an empty catalog (the `unwrap_or(1)` of
`SnapshotContext::new`). -/
def catalogWatermark (s : DB) : Int :=
  (ReadQueries.get_next_catalog_id s).getD 1

/-- The file-id watermark a fresh commit starts from (same pattern as
`catalogWatermark`). -/
def fileWatermark (s : DB) : Int :=
  (ReadQueries.get_next_file_id s).getD 1

/-- The column rows `create_table_tx` produces for definitions enumerated
from index `k` at snapshot `begin_snapshot` for table `table_id`. -/
def columnRowsFrom (begin_snapshot table_id : Int) (k : Nat)
    (cols : List ColumnDefinition) : List ColumnRow :=
  (cols.enumFrom k).map
    (fun p => ⟨p.2.column_id.getD ((p.1 : Int) + 1), begin_snapshot, none,
      table_id, (p.1 : Int), p.2.name, p.2.data_type, p.2.nullable⟩)

/-- The file-level statistics row `insert_file_column_stats` produces for one
supplied statistic. -/
def fileStatsRow (data_file_id table_id : Int)
    (st : FileColumnStatistics) : FileColStatsRow :=
  ⟨data_file_id, table_id, st.column_id, st.value_count, st.null_count,
    st.nan_count, st.min_value, st.max_value⟩

/-- One file registration request: the arguments of one
`insert_data_file` call. -/
structure FileReg where
  file_path : String
  record_count : Int
  file_size_bytes : Int
  stats : List FileColumnStatistics
  deriving Repr, DecidableEq

/-- Register a sequence of files for one table, one commit each. -/
def insertFiles (s : DB) (table_id : Int) (regs : List FileReg) : DB :=
  regs.foldl
    (fun acc r => DuckLake.insert_data_file_tx acc table_id r.file_path
      r.record_count r.file_size_bytes r.stats)
    s

/-- Total record count of a sequence of registrations. -/
def sumRecords (regs : List FileReg) : Int :=
  (regs.map (·.record_count)).sum

/-- Total byte size of a sequence of registrations. -/
def sumSizes (regs : List FileReg) : Int :=
  (regs.map (·.file_size_bytes)).sum

/-- All file-level statistics supplied for one column across a sequence of
registrations, in registration order. -/
def colEntries (column_id : Int) (regs : List FileReg) :
    List FileColumnStatistics :=
  regs.flatMap (fun r => r.stats.filter (fun st => st.column_id == column_id))

/-- The `TableStats` row of one table. -/
def findTableStats (l : List TableStatsRow) (table_id : Int) :
    Option TableStatsRow :=
  l.find? (fun r => r.table_id == table_id)

/-- The table-level statistics row of one column of one table. -/
def findTableColStats (l : List TableColStatsRow) (table_id column_id :
    Int) : Option TableColStatsRow :=
  l.find? (fun r => r.table_id == table_id && r.column_id == column_id)

/-- One merge step of the table-level aggregate for a fixed column, as an
operation on the (possibly absent) aggregate row. -/
def mergeStatRow (table_id column_id : Int) (o : Option TableColStatsRow)
    (st : FileColumnStatistics) : TableColStatsRow :=
  match o with
  | none => ⟨table_id, column_id, st.null_count, st.nan_count, st.min_value,
      st.max_value⟩
  | some r => ⟨r.table_id, r.column_id, r.null_count + st.null_count,
      r.nan_count + st.nan_count, WriteQueries.mergeMin r.min_value
        st.min_value, WriteQueries.mergeMax r.max_value st.max_value⟩

/-- The data-file rows a sequence of registrations appends for table
`table_id`, starting from maximal snapshot id `μ`, file-id watermark `φ` and
row-id watermark `R`: ids, begin snapshots and row-id starts each advance
with every registration. -/
def expectedFileRows (table_id : Int) :
    Int → Int → Int → List FileReg → List DataFileRow
  | _, _, _, [] => []
  | μ, φ, R, r :: rest =>
      ⟨φ, table_id, μ + 1, none, r.file_path, true, "parquet",
        r.record_count, r.file_size_bytes, some 4096, R⟩ ::
      expectedFileRows table_id (μ + 1) (φ + 1) (R + r.record_count) rest

/-- The temporal-containment predicate of the claim: snapshot `snap` falls in
the validity interval `[begin_snapshot, end_snapshot)`. -/
def CoversSnapshot (begin_snapshot : Int) (end_snapshot : Option Int)
    (snap : Int) : Prop :=
  begin_snapshot ≤ snap ∧
    (end_snapshot = none ∨ ∃ e, end_snapshot = some e ∧ snap < e)

/-- A one-schema catalog: schema `analytics` created by snapshot 1, which
recorded watermarks `next_catalog_id = 2`, `next_file_id = 1`. -/
def dbOneSchema : DB :=
  { DB.empty with
      snapshots := [⟨1, 1, 2, 1⟩],
      changelog := [(1, "CREATE SCHEMA analytics")],
      schemas := [⟨1, 1, none, "analytics"⟩] }

/-- A catalog holding one active data file (id 1) of table 2 with a
statistic for column 1 ranging over `["1001", "1004"]`, and one active data
file (id 7) of table 2 with no statistic for column 1. -/
def dbPruneDemo : DB :=
  { DB.empty with
      snapshots := [⟨1, 1, 3, 8⟩],
      dataFiles :=
        [⟨1, 2, 1, none, "a.parquet", true, "parquet", 5, 100, some 4096, 0⟩,
         ⟨7, 2, 1, none, "b.parquet", true, "parquet", 3, 60, some 4096, 5⟩],
      fileColStats := [⟨1, 2, 1, 5, 0, 0, some "1001", some "1004"⟩] }

/-- The `min_value` of a possibly-absent table-level statistics row. -/
def rowMin (o : Option TableColStatsRow) : Option String :=
  match o with
  | none => none
  | some r => r.min_value

/-- The `max_value` of a possibly-absent table-level statistics row. -/
def rowMax (o : Option TableColStatsRow) : Option String :=
  match o with
  | none => none
  | some r => r.max_value

/-- Two file registrations for table 1: 5 records sized 100 with column-1
range `["b", "b"]`, then 7 records sized 200 with column-1 range
`["a", "c"]`. -/
def demoRegs : List FileReg :=
  [⟨"f1.parquet", 5, 100, [⟨1, 5, 0, 0, some "b", some "b"⟩]⟩,
   ⟨"f2.parquet", 7, 200, [⟨1, 7, 1, 0, some "a", some "c"⟩]⟩]

/-- Two listed data files, used to exercise the read path. -/
def demoFiles : List DataFileInfo :=
  [⟨1, "good.parquet"⟩, ⟨2, "bad.parquet"⟩]

/-- A scan function that fails on `bad.parquet` and yields two batches
(numbered 7 and 8) for every other file. -/
def demoRead : String → Except String (List Int) :=
  fun p => if p = "bad.parquet" then .error "unreadable" else .ok [7, 8]

/-! Basic lemmas about the allocator reads. -/

theorem le_foldr_max (l : List Int) (a : Int) (h : a ∈ l) :
    a ≤ l.foldr max 0 := by
  induction l with
  | nil => cases h
  | cons b t ih =>
    rcases List.mem_cons.mp h with rfl | hm
    · exact le_max_left _ _
    · exact (ih hm).trans (le_max_right _ _)

theorem foldr_max_nonneg (l : List Int) : 0 ≤ l.foldr max 0 := by
  induction l with
  | nil => exact le_refl 0
  | cons b t ih => exact ih.trans (le_max_right _ _)

theorem foldr_max_init (l : List Int) (c : Int) (hc : 0 ≤ c) :
    l.foldr max c = max (l.foldr max 0) c := by
  induction l with
  | nil => simp [max_eq_right hc]
  | cons b t ih => simp [List.foldr_cons, ih, max_assoc]

theorem snapshot_id_le_max (s : DB) (r : SnapshotRow) (h : r ∈ s.snapshots) :
    r.snapshot_id ≤ ReadQueries.get_max_snapshot_id s :=
  le_foldr_max _ _ (List.mem_map_of_mem _ h)

theorem max_snapshot_nonneg (s : DB) :
    0 ≤ ReadQueries.get_max_snapshot_id s :=
  foldr_max_nonneg _

theorem get_max_snapshot_id_snapshots (s s' : DB) (r : SnapshotRow)
    (hs' : s'.snapshots = s.snapshots ++ [r]) (hr : 0 ≤ r.snapshot_id) :
    ReadQueries.get_max_snapshot_id s' =
      max (ReadQueries.get_max_snapshot_id s) r.snapshot_id := by
  unfold ReadQueries.get_max_snapshot_id
  rw [hs', List.map_append, List.foldr_append]
  simp only [List.map_cons, List.map_nil, List.foldr_cons, List.foldr_nil]
  rw [foldr_max_init _ _ (le_max_of_le_left hr)]
  rw [max_eq_left hr]

theorem latest_foldl_mem (l : List SnapshotRow) :
    ∀ (acc : Option SnapshotRow) (a : SnapshotRow),
      l.foldl
        (fun acc r =>
          match acc with
          | none => some r
          | some x =>
              if x.snapshot_id ≤ r.snapshot_id then some r else some x)
        acc = some a →
      a ∈ l ∨ acc = some a := by
  induction l with
  | nil => intro acc a h; exact Or.inr h
  | cons b t ih =>
    intro acc a h
    simp only [List.foldl_cons] at h
    rcases ih _ a h with hm | hacc
    · exact Or.inl (List.mem_cons_of_mem _ hm)
    · cases acc with
      | none =>
        simp only [Option.some.injEq] at hacc
        exact Or.inl (hacc ▸ List.mem_cons_self _ _)
      | some x =>
        by_cases hle : x.snapshot_id ≤ b.snapshot_id
        · simp only [hle, if_true, Option.some.injEq] at hacc
          exact Or.inl (hacc ▸ List.mem_cons_self _ _)
        · simp only [hle, if_false, Option.some.injEq] at hacc
          exact Or.inr (by rw [hacc])

theorem latestSnapshot_append (s s' : DB) (r : SnapshotRow)
    (hs' : s'.snapshots = s.snapshots ++ [r])
    (h : ∀ x ∈ s.snapshots, x.snapshot_id ≤ r.snapshot_id) :
    ReadQueries.latestSnapshot s' = some r := by
  unfold ReadQueries.latestSnapshot
  rw [hs', List.foldl_append]
  rcases hacc : s.snapshots.foldl
      (fun acc r =>
        match acc with
        | none => some r
        | some x =>
            if x.snapshot_id ≤ r.snapshot_id then some r else some x)
      none with _ | a
  · rw [hacc]; rfl
  · rw [hacc]
    rcases latest_foldl_mem s.snapshots none a hacc with hm | hcontra
    · simp [h a hm]
    · cases hcontra

theorem catalogWatermark_append (s s' : DB) (r : SnapshotRow)
    (hs' : s'.snapshots = s.snapshots ++ [r])
    (h : ∀ x ∈ s.snapshots, x.snapshot_id ≤ r.snapshot_id) :
    catalogWatermark s' = r.next_catalog_id := by
  unfold catalogWatermark ReadQueries.get_next_catalog_id
  rw [latestSnapshot_append s s' r hs' h]
  rfl

theorem fileWatermark_append (s s' : DB) (r : SnapshotRow)
    (hs' : s'.snapshots = s.snapshots ++ [r])
    (h : ∀ x ∈ s.snapshots, x.snapshot_id ≤ r.snapshot_id) :
    fileWatermark s' = r.next_file_id := by
  unfold fileWatermark ReadQueries.get_next_file_id
  rw [latestSnapshot_append s s' r hs' h]
  rfl

/-! Characterization of each catalog operation as one simultaneous record
update of the store. -/

theorem create_schema_tx_def (s : DB) (name : String) :
    DuckLake.create_schema_tx s name =
    { s with
        snapshots := s.snapshots ++ [⟨ReadQueries.get_max_snapshot_id s + 1, ReadQueries.get_max_snapshot_id s + 1, catalogWatermark s, fileWatermark s⟩],
        changelog := s.changelog ++ [(ReadQueries.get_max_snapshot_id s + 1, "CREATE SCHEMA " ++ name)],
        schemas := s.schemas ++ [⟨catalogWatermark s, ReadQueries.get_max_snapshot_id s + 1, none, name⟩] } :=
  rfl

theorem create_column_fold (begin_snapshot table_id : Int)
    (cols : List ColumnDefinition) :
    ∀ (k : Nat) (s : DB),
      (cols.enumFrom k).foldl
        (fun acc p =>
          WriteQueries.create_column acc
            (p.2.column_id.getD ((p.1 : Int) + 1)) begin_snapshot table_id
            (p.1 : Int) p.2.name p.2.data_type p.2.nullable)
        s =
      { s with columns := s.columns ++ columnRowsFrom begin_snapshot table_id k cols } := by
  induction cols with
  | nil => intro k s; simp [columnRowsFrom]
  | cons c cs ih =>
    intro k s
    simp only [List.enumFrom_cons, List.foldl_cons]
    rw [ih (k + 1)]
    simp [WriteQueries.create_column, columnRowsFrom]

theorem create_table_tx_def (s : DB) (schema_id : Int) (table_name : String)
    (columns : List ColumnDefinition) :
    DuckLake.create_table_tx s schema_id table_name columns =
    { s with
        snapshots := s.snapshots ++ [⟨ReadQueries.get_max_snapshot_id s + 1, ReadQueries.get_max_snapshot_id s + 1, catalogWatermark s + 1, fileWatermark s⟩],
        changelog := s.changelog ++ [(ReadQueries.get_max_snapshot_id s + 1, "CREATE TABLE " ++ table_name)],
        tables := s.tables ++ [⟨catalogWatermark s, ReadQueries.get_max_snapshot_id s + 1, none, schema_id, table_name⟩],
        columns := s.columns ++ columnRowsFrom (ReadQueries.get_max_snapshot_id s + 1) (catalogWatermark s) 0 columns } := by
  unfold DuckLake.create_table_tx
  simp only [List.enum_eq_enumFrom, create_column_fold]
  rfl

theorem stats_fold_spec (data_file_id table_id : Int)
    (stats : List FileColumnStatistics) :
    ∀ (s : DB),
      stats.foldl
        (fun acc st =>
          WriteQueries.update_table_column_stats
            (WriteQueries.insert_file_column_stats acc data_file_id table_id
              st.column_id st.value_count st.null_count st.nan_count
              st.min_value st.max_value)
            table_id st.column_id st.null_count st.nan_count st.min_value
            st.max_value)
        s =
      { s with
          fileColStats := s.fileColStats ++ stats.map (fileStatsRow data_file_id table_id),
          tableColStats := stats.foldl (fun l st => WriteQueries.upsertTableColStats l table_id st.column_id st.null_count st.nan_count st.min_value st.max_value) s.tableColStats } := by
  induction stats with
  | nil => intro s; simp
  | cons st rest ih =>
    intro s
    simp only [List.foldl_cons, List.map_cons]
    rw [ih]
    simp [WriteQueries.update_table_column_stats,
      WriteQueries.insert_file_column_stats, fileStatsRow]

theorem insert_data_file_tx_def (s : DB) (table_id : Int)
    (file_path : String) (record_count file_size_bytes : Int)
    (stats : List FileColumnStatistics) :
    DuckLake.insert_data_file_tx s table_id file_path record_count
      file_size_bytes stats =
    { s with
        snapshots := s.snapshots ++ [⟨ReadQueries.get_max_snapshot_id s + 1, ReadQueries.get_max_snapshot_id s + 1, catalogWatermark s, fileWatermark s + 1⟩],
        changelog := s.changelog ++ [(ReadQueries.get_max_snapshot_id s + 1, "INSERT DATA FILE " ++ file_path)],
        dataFiles := s.dataFiles ++ [⟨fileWatermark s, table_id, ReadQueries.get_max_snapshot_id s + 1, none, file_path, true, "parquet", record_count, file_size_bytes, some 4096, (ReadQueries.get_table_next_row_id s table_id).getD 0⟩],
        tableStats := WriteQueries.upsertTableStats s.tableStats table_id record_count file_size_bytes,
        fileColStats := s.fileColStats ++ stats.map (fileStatsRow (fileWatermark s) table_id),
        tableColStats := stats.foldl (fun l st => WriteQueries.upsertTableColStats l table_id st.column_id st.null_count st.nan_count st.min_value st.max_value) s.tableColStats } := by
  unfold DuckLake.insert_data_file_tx DuckLake.insert_data_file_staged
  rw [stats_fold_spec]
  rfl

/-! Bridging lemmas for the claims. -/

theorem activeAt_iff (b : Int) (e : Option Int) (snap : Int) :
    ReadQueries.activeAt b e snap = true ↔ CoversSnapshot b e snap := by
  unfold ReadQueries.activeAt CoversSnapshot
  cases e with
  | none => simp
  | some x => simp [Bool.and_eq_true, decide_eq_true_eq]

theorem columnRowsFrom_of_none (begin_snapshot table_id : Int)
    (cols : List ColumnDefinition) :
    ∀ k : Nat, (∀ c ∈ cols, c.column_id = none) →
      columnRowsFrom begin_snapshot table_id k cols =
      (cols.enumFrom k).map
        (fun p => ⟨(p.1 : Int) + 1, begin_snapshot, none, table_id,
          (p.1 : Int), p.2.name, p.2.data_type, p.2.nullable⟩) := by
  induction cols with
  | nil => intro k _; rfl
  | cons c cs ih =>
    intro k h
    simp only [columnRowsFrom, List.enumFrom_cons, List.map_cons] at *
    rw [h c (List.mem_cons_self _ _)]
    refine congrArg _ ?_
    exact ih (k + 1) (fun d hd => h d (List.mem_cons_of_mem _ hd))

theorem scan_files_go {ε β : Type} (readFile : String → Except ε (List β)) :
    ∀ (files : List DataFileInfo) (acc : List β),
      files.foldl
        (fun acc f =>
          match readFile f.data_file_path with
          | .ok batches => acc ++ batches
          | .error _ => acc)
        acc = acc ++ Lakehouse.successBatches readFile files := by
  intro files
  induction files with
  | nil => intro acc; simp [Lakehouse.successBatches]
  | cons f fs ih =>
    intro acc
    simp only [List.foldl_cons, Lakehouse.successBatches, List.flatMap_cons]
    cases readFile f.data_file_path with
    | ok batches => rw [ih]; simp [Lakehouse.successBatches, List.append_assoc]
    | error e => rw [ih]; simp [Lakehouse.successBatches]

theorem scan_files_eq_successBatches {ε β : Type}
    (readFile : String → Except ε (List β)) (files : List DataFileInfo) :
    Lakehouse.scan_files readFile files =
      Lakehouse.successBatches readFile files := by
  unfold Lakehouse.scan_files
  simpa using scan_files_go readFile files []

/-! The claims. -/

/-- C1: the claim asserts that all staged mutations of `insert_data_file`
together with the Snapshot row execute in one all-or-nothing transaction, so
that after a fault before the Snapshot-row insert no DataFile row, statistics
row or roll-up update is observable. This theorem evaluates the code at the
failing input: a fault injected after the statistics are staged but before
`create_snapshot` (the state `insert_data_file_staged` — every staged write
having already executed against the pool, the unused `tx` notwithstanding)
leaves the DataFile row, the file-level statistics row and the roll-up row
all observable while no Snapshot row exists. -/
theorem insert_data_file_fault_leaves_partial_state :
    (DuckLake.insert_data_file_staged DB.empty 1 "f.parquet" 5 10
        [⟨1, 5, 0, 0, some "a", some "b"⟩]).snapshots = [] ∧
    (DuckLake.insert_data_file_staged DB.empty 1 "f.parquet" 5 10
        [⟨1, 5, 0, 0, some "a", some "b"⟩]).dataFiles ≠ [] ∧
    (DuckLake.insert_data_file_staged DB.empty 1 "f.parquet" 5 10
        [⟨1, 5, 0, 0, some "a", some "b"⟩]).fileColStats ≠ [] ∧
    (DuckLake.insert_data_file_staged DB.empty 1 "f.parquet" 5 10
        [⟨1, 5, 0, 0, some "a", some "b"⟩]).tableStats ≠ [] := by
  refine ⟨rfl, ?_, ?_, ?_⟩ <;> decide

/-- C2: the claim asserts that a commit consuming K catalog ids records
`next_catalog_id` advanced by K, so ids are never reused. Evaluating the code
at the failing input — two successive `create_schema` commits on an empty
catalog — shows both schemas receive catalog id 1, and both Snapshot rows
record the un-advanced watermark 1 although each commit consumed one id. -/
theorem create_schema_reuses_catalog_id :
    ((DuckLake.create_schema_tx (DuckLake.create_schema_tx DB.empty
        "analytics") "staging").schemas.map (·.schema_id) = [1, 1]) ∧
    ((DuckLake.create_schema_tx (DuckLake.create_schema_tx DB.empty
        "analytics") "staging").snapshots.map
        (fun r => (r.snapshot_id, r.next_catalog_id)) = [(1, 1), (2, 1)]) := by
  refine ⟨?_, ?_⟩ <;> decide

/-- C3 counterexample: creating the first table (table id 1) with one column
carrying no explicit id yields column id 1, not `table_id + 1 = 2`: the
column ids are not `table_id + 1, ..., table_id + n`. -/
theorem first_column_id_not_table_id_plus_one :
    ((DuckLake.create_table_tx DB.empty 1 "events"
        [⟨none, "user_id", "INT64", false⟩]).tables.map (·.table_id) = [1]) ∧
    ((DuckLake.create_table_tx DB.empty 1 "events"
        [⟨none, "user_id", "INT64", false⟩]).columns.map (·.column_id) = [1]) ∧
    ((DuckLake.create_table_tx DB.empty 1 "events"
        [⟨none, "user_id", "INT64", false⟩]).columns.map (·.column_id) ≠
      (DuckLake.create_table_tx DB.empty 1 "events"
        [⟨none, "user_id", "INT64", false⟩]).tables.map
        (fun r => r.table_id + 1)) := by
  refine ⟨?_, ?_, ?_⟩ <;> decide

/-- C3 (amended): for a `createTable` call with n columns none of which
carries a caller-supplied id, the created column rows receive the dense ids
`1, 2, ..., n` in declaration order (`index + 1`, independent of the table
id), with `column_order` `0, ..., n-1`, and every column row's
`begin_snapshot` equals the created table row's `begin_snapshot`. -/
theorem create_table_columns_dense_ids (s : DB) (schema_id : Int)
    (table_name : String) (columns : List ColumnDefinition)
    (h : ∀ c ∈ columns, c.column_id = none) :
    (DuckLake.create_table_tx s schema_id table_name columns).tables =
      s.tables ++ [⟨catalogWatermark s, ReadQueries.get_max_snapshot_id s + 1,
        none, schema_id, table_name⟩] ∧
    (DuckLake.create_table_tx s schema_id table_name columns).columns =
      s.columns ++ columns.enum.map
        (fun p => ⟨(p.1 : Int) + 1, ReadQueries.get_max_snapshot_id s + 1,
          none, catalogWatermark s, (p.1 : Int), p.2.name, p.2.data_type,
          p.2.nullable⟩) := by
  rw [create_table_tx_def]
  refine ⟨rfl, ?_⟩
  rw [List.enum_eq_enumFrom]
  rw [columnRowsFrom_of_none _ _ _ 0 h]

/-- Witness for the amended C3 theorem at a concrete input: two columns on an
empty catalog get ids 1 and 2 with `begin_snapshot` 1, the table's. -/
theorem create_table_columns_dense_ids_witness :
    (DuckLake.create_table_tx DB.empty 1 "events"
        [⟨none, "user_id", "INT64", false⟩, ⟨none, "label", "STRING", true⟩]).columns =
      [⟨1, 1, none, 1, 0, "user_id", "INT64", false⟩,
       ⟨2, 1, none, 1, 1, "label", "STRING", true⟩] := by
  have h := create_table_columns_dense_ids DB.empty 1 "events"
    [⟨none, "user_id", "INT64", false⟩, ⟨none, "label", "STRING", true⟩]
    (by intro c hc; fin_cases hc <;> rfl)
  exact h.2.trans (by decide)

/-- C10: every data file registered through `insert_data_file` is recorded
with `path_is_relative = true`, `file_format = "parquet"` and
`footer_size = 4096`, whatever the caller supplied: the appended row carries
these constants for all arguments. -/
theorem insert_data_file_fixed_fields (s : DB) (table_id : Int)
    (file_path : String) (record_count file_size_bytes : Int)
    (stats : List FileColumnStatistics) :
    (DuckLake.insert_data_file_tx s table_id file_path record_count
        file_size_bytes stats).dataFiles =
      s.dataFiles ++ [⟨fileWatermark s, table_id,
        ReadQueries.get_max_snapshot_id s + 1, none, file_path, true,
        "parquet", record_count, file_size_bytes, some 4096,
        (ReadQueries.get_table_next_row_id s table_id).getD 0⟩] := by
  rw [insert_data_file_tx_def]

/-- C6: temporal containment — each as-of-snapshot read (schemas, tables of a
schema, columns of a table, data files of a table) includes an entity within
its scope iff `begin_snapshot <= S` and (`end_snapshot` is null or
`S < end_snapshot`). -/
theorem as_of_snapshot_temporal_containment (s : DB) (snap sid tid : Int)
    (sc : SchemaRow) (tb : TableRow) (col : ColumnRow) (df : DataFileRow) :
    (sc ∈ DuckLake.list_schemas_at_snapshot s snap ↔
      sc ∈ s.schemas ∧
        CoversSnapshot sc.begin_snapshot sc.end_snapshot snap) ∧
    (tb ∈ DuckLake.list_tables_at_snapshot s sid snap ↔
      tb ∈ s.tables ∧ tb.schema_id = sid ∧
        CoversSnapshot tb.begin_snapshot tb.end_snapshot snap) ∧
    (col ∈ DuckLake.table_structure_at_snapshot s tid snap ↔
      col ∈ s.columns ∧ col.table_id = tid ∧
        CoversSnapshot col.begin_snapshot col.end_snapshot snap) ∧
    (df ∈ DuckLake.list_data_files_at_snapshot s tid snap ↔
      df ∈ s.dataFiles ∧ df.table_id = tid ∧
        CoversSnapshot df.begin_snapshot df.end_snapshot snap) := by
  refine ⟨?_, ?_, ?_, ?_⟩
  · rw [DuckLake.list_schemas_at_snapshot, ReadQueries.list_schemas,
      List.mem_filter, activeAt_iff]
  · rw [DuckLake.list_tables_at_snapshot, ReadQueries.list_tables,
      List.mem_filter]
    simp [Bool.and_eq_true, activeAt_iff, beq_iff_eq, and_assoc]
  · rw [DuckLake.table_structure_at_snapshot,
      ReadQueries.show_table_structure,
      (List.mergeSort_perm _ _).mem_iff, List.mem_filter]
    simp [Bool.and_eq_true, activeAt_iff, beq_iff_eq, and_assoc]
  · rw [DuckLake.list_data_files_at_snapshot, ReadQueries.list_data_files,
      List.mem_filter]
    simp [Bool.and_eq_true, activeAt_iff, beq_iff_eq, and_assoc]

/-- C7: pruning soundness — every active data file of the probed table whose
file-level statistic for the probed column (if any) has
`min_value <= value` and `value <= max_value` (each bound binding only when
present) is in the result of `prune_files_by_column_stats`; in particular a
file with no recorded statistic for that column is always included. -/
theorem prune_files_sound (s : DB) (t c : Int) (v : String)
    (f : DataFileRow) (hmem : f ∈ s.dataFiles) (htab : f.table_id = t)
    (hact : f.end_snapshot = none)
    (hstat : ∀ st, s.fileColStats.find?
        (fun st => st.data_file_id == f.data_file_id &&
          st.column_id == c) = some st →
      (∀ m, st.min_value = some m → m ≤ v) ∧
      (∀ M, st.max_value = some M → v ≤ M)) :
    f.data_file_id ∈ ReadQueries.prune_files_by_column_stats s t c v := by
  unfold ReadQueries.prune_files_by_column_stats
  apply List.mem_map_of_mem
  rw [List.mem_filter]
  refine ⟨hmem, ?_⟩
  cases hfind : s.fileColStats.find?
      (fun st => st.data_file_id == f.data_file_id &&
        st.column_id == c) with
  | none => simp [htab, hact, hfind]
  | some st =>
    obtain ⟨h1, h2⟩ := hstat st hfind
    have hc : ReadQueries.statContains st v = true := by
      unfold ReadQueries.statContains
      cases hmin : st.min_value with
      | none =>
        cases hmax : st.max_value with
        | none => rfl
        | some M => simp [h2 M hmax]
      | some m =>
        cases hmax : st.max_value with
        | none => simp [h1 m hmin]
        | some M => simp [h1 m hmin, h2 M hmax]
    simp [htab, hact, hfind, hc]

/-- Witness for the pruning-soundness theorem: in `dbPruneDemo`, file 1
(statistic `["1001", "1004"]`, probe `"1002"` inside the range) and file 7
(no statistic for column 1, arbitrary probe) are both returned. -/
theorem prune_files_sound_witness :
    1 ∈ ReadQueries.prune_files_by_column_stats dbPruneDemo 2 1 "1002" ∧
    7 ∈ ReadQueries.prune_files_by_column_stats dbPruneDemo 2 1 "1002" := by
  constructor
  · exact prune_files_sound dbPruneDemo 2 1 "1002"
      ⟨1, 2, 1, none, "a.parquet", true, "parquet", 5, 100, some 4096, 0⟩
      (by decide) rfl rfl
      (by
        intro st hst
        have h2 : some (⟨1, 2, 1, 5, 0, 0, some "1001", some "1004"⟩ :
            FileColStatsRow) = some st := by rw [← hst]; rfl
        cases Option.some.inj h2
        refine ⟨?_, ?_⟩
        · intro m hm
          cases hm
          rw [String.le_iff_toList_le]; decide
        · intro M hM
          cases hM
          rw [String.le_iff_toList_le]; decide)
  · exact prune_files_sound dbPruneDemo 2 1 "1002"
      ⟨7, 2, 1, none, "b.parquet", true, "parquet", 3, 60, some 4096, 5⟩
      (by decide) rfl rfl
      (by
        intro st hst
        have h0 : (none : Option FileColStatsRow) = some st := by
          rw [← hst]; rfl
        cases h0)

/-- C8 counterexample: in `dbOneSchema` snapshot id 999 does not exist, yet
the first query of `at_snapshot 999` returns a non-empty result set, not the
empty one the claim promises for a non-existent snapshot id. -/
theorem time_travel_nonexistent_snapshot_nonempty :
    (999 ∉ dbOneSchema.snapshots.map (·.snapshot_id)) ∧
    (TimeTravel.at_snapshot 999).list_schemas dbOneSchema ≠ [] := by
  refine ⟨?_, ?_⟩ <;> decide

/-- C8 (amended): `at_snapshot` performs no data-store access and stores
nothing beyond the bound snapshot id, and each `TimeTravel` read returns
exactly the corresponding `*_at_snapshot` result of the underlying catalog;
a query at a snapshot id that does not exist also does not error — it
returns the temporal filter applied at that id, which is empty exactly when
no entity's validity interval covers the id (e.g. an id below the first
commit), not for every non-existent id. -/
theorem time_travel_delegates (db : DB) (snap schema_id table_id : Int) :
    (TimeTravel.at_snapshot snap).snapshot_id = snap ∧
    (TimeTravel.at_snapshot snap).list_schemas db =
      DuckLake.list_schemas_at_snapshot db snap ∧
    (TimeTravel.at_snapshot snap).list_tables db schema_id =
      DuckLake.list_tables_at_snapshot db schema_id snap ∧
    (TimeTravel.at_snapshot snap).table_structure db table_id =
      DuckLake.table_structure_at_snapshot db table_id snap ∧
    (TimeTravel.at_snapshot snap).list_data_files db table_id =
      DuckLake.list_data_files_at_snapshot db table_id snap ∧
    ((∀ r ∈ db.schemas,
        ¬ CoversSnapshot r.begin_snapshot r.end_snapshot snap) →
      (TimeTravel.at_snapshot snap).list_schemas db = []) := by
  refine ⟨rfl, rfl, rfl, rfl, rfl, ?_⟩
  intro h
  show DuckLake.list_schemas_at_snapshot db snap = []
  rw [DuckLake.list_schemas_at_snapshot, ReadQueries.list_schemas,
    List.filter_eq_nil_iff]
  intro r hr
  rw [Bool.not_eq_true, ← Bool.not_eq_true, activeAt_iff]
  exact h r hr

/-- Witness for the amended C8 theorem: at snapshot 0 of `dbOneSchema` (an
id below the first commit, hence covering no entity), the `TimeTravel` read
equals the catalog read and is empty. -/
theorem time_travel_delegates_witness :
    (TimeTravel.at_snapshot 0).list_schemas dbOneSchema =
      DuckLake.list_schemas_at_snapshot dbOneSchema 0 ∧
    (TimeTravel.at_snapshot 0).list_schemas dbOneSchema = [] := by
  refine ⟨(time_travel_delegates dbOneSchema 0 0 0).2.1, ?_⟩
  refine (time_travel_delegates dbOneSchema 0 0 0).2.2.2.2.2 ?_
  intro r hr
  fin_cases hr
  intro hc
  exact absurd hc.1 (by norm_num)

/-- C9: when scanning a table's data files, a failed file read is only
logged and skipped: `read_from_table` returns `ok` with the batches of
exactly the files that could be read, even when the scan of some file
fails. -/
theorem read_from_table_partial_failure {ε β : Type}
    (readFile : String → Except ε (List β)) (files : List DataFileInfo)
    (h : ∃ f ∈ files, ∃ e, readFile f.data_file_path = .error e) :
    Lakehouse.read_from_table readFile files =
      .ok (Lakehouse.successBatches readFile files) := by
  unfold Lakehouse.read_from_table
  by_cases hemp : files.isEmpty
  · rw [if_pos hemp]
    rw [List.isEmpty_iff.mp hemp]
    rfl
  · rw [if_neg hemp, scan_files_eq_successBatches]

/-- Witness for the C9 theorem: with `bad.parquet` unreadable, the read
still returns `ok` with the two batches of `good.parquet`. -/
theorem read_from_table_partial_failure_witness :
    Lakehouse.read_from_table demoRead demoFiles = .ok [7, 8] := by
  have h := read_from_table_partial_failure demoRead demoFiles
    ⟨⟨2, "bad.parquet"⟩, by decide, "unreadable", rfl⟩
  exact h.trans (congrArg _ (by decide))

/-! Lemmas for the serialized-commit-sequence claim. -/

theorem maxSeq (n : Nat) :
    (((List.range n).map (fun (i : Nat) => (i : Int) + 1)).foldr max 0) = n := by
  induction n with
  | zero => rfl
  | succ n ih =>
    rw [List.range_succ, List.map_append, List.foldr_append]
    simp only [List.map_cons, List.map_nil, List.foldr_cons, List.foldr_nil]
    have h0 : max ((n : Int) + 1) 0 = (n : Int) + 1 := max_eq_left (by omega)
    rw [h0, foldr_max_init _ _ (by omega), ih, max_eq_right (by omega)]
    omega

theorem applyOp_step (s : DB) (op : CatalogOp) :
    ∃ w fw, (applyOp s op).snapshots = s.snapshots ++
        [⟨ReadQueries.get_max_snapshot_id s + 1,
          ReadQueries.get_max_snapshot_id s + 1, w, fw⟩] ∧
      catalogWatermark s ≤ w ∧ fileWatermark s ≤ fw := by
  cases op with
  | createSchema name =>
    refine ⟨catalogWatermark s, fileWatermark s, ?_, le_refl _, le_refl _⟩
    show (DuckLake.create_schema_tx s name).snapshots = _
    rw [create_schema_tx_def]
  | createTable schema_id table_name columns =>
    refine ⟨catalogWatermark s + 1, fileWatermark s, ?_, by omega, le_refl _⟩
    show (DuckLake.create_table_tx s schema_id table_name columns).snapshots = _
    rw [create_table_tx_def]
  | insertDataFile table_id path rc fs stats =>
    refine ⟨catalogWatermark s, fileWatermark s + 1, ?_, le_refl _, by omega⟩
    show (DuckLake.insert_data_file_tx s table_id path rc fs stats).snapshots = _
    rw [insert_data_file_tx_def]

theorem inv_step (s : DB) (op : CatalogOp)
    (h1 : s.snapshots.map (·.snapshot_id) =
      (List.range s.snapshots.length).map (fun (i : Nat) => (i : Int) + 1))
    (h2 : List.Chain' (· ≤ ·) (s.snapshots.map (·.next_catalog_id)))
    (h3 : List.Chain' (· ≤ ·) (s.snapshots.map (·.next_file_id)))
    (h4 : ReadQueries.latestSnapshot s = s.snapshots.getLast?) :
    ((applyOp s op).snapshots.map (·.snapshot_id) =
      (List.range (applyOp s op).snapshots.length).map
        (fun (i : Nat) => (i : Int) + 1)) ∧
    List.Chain' (· ≤ ·) ((applyOp s op).snapshots.map (·.next_catalog_id)) ∧
    List.Chain' (· ≤ ·) ((applyOp s op).snapshots.map (·.next_file_id)) ∧
    ReadQueries.latestSnapshot (applyOp s op) =
      (applyOp s op).snapshots.getLast? := by
  obtain ⟨w, fw, hsnap, hw, hfw⟩ := applyOp_step s op
  have hmax : ReadQueries.get_max_snapshot_id s = (s.snapshots.length : Int) := by
    unfold ReadQueries.get_max_snapshot_id
    rw [h1]; exact maxSeq _
  have hle : ∀ x ∈ s.snapshots,
      x.snapshot_id ≤ ReadQueries.get_max_snapshot_id s + 1 :=
    fun x hx => (snapshot_id_le_max s x hx).trans (by omega)
  have hcat : ∀ z, s.snapshots.getLast? = some z →
      catalogWatermark s = z.next_catalog_id := by
    intro z hz
    unfold catalogWatermark ReadQueries.get_next_catalog_id
    rw [h4, hz]; rfl
  have hfile : ∀ z, s.snapshots.getLast? = some z →
      fileWatermark s = z.next_file_id := by
    intro z hz
    unfold fileWatermark ReadQueries.get_next_file_id
    rw [h4, hz]; rfl
  refine ⟨?_, ?_, ?_, ?_⟩
  · rw [hsnap, List.map_append, List.length_append, h1]
    simp only [List.map_cons, List.map_nil, List.length_singleton]
    rw [List.range_succ, List.map_append]
    simp only [List.map_cons, List.map_nil]
    rw [hmax]
  · rw [hsnap, List.map_append]
    rw [List.chain'_append]
    refine ⟨h2, List.chain'_singleton _, ?_⟩
    intro x hx y hy
    simp only [List.map_cons, List.map_nil, List.head?_cons,
      Option.mem_def, Option.some.injEq] at hy
    subst hy
    rw [List.getLast?_map, Option.mem_def, Option.map_eq_some'] at hx
    obtain ⟨z, hz, rfl⟩ := hx
    exact (hcat z hz).symm.trans_le hw
  · rw [hsnap, List.map_append]
    rw [List.chain'_append]
    refine ⟨h3, List.chain'_singleton _, ?_⟩
    intro x hx y hy
    simp only [List.map_cons, List.map_nil, List.head?_cons,
      Option.mem_def, Option.some.injEq] at hy
    subst hy
    rw [List.getLast?_map, Option.mem_def, Option.map_eq_some'] at hx
    obtain ⟨z, hz, rfl⟩ := hx
    exact (hfile z hz).symm.trans_le hfw
  · rw [latestSnapshot_append s (applyOp s op) _ hsnap hle, hsnap,
      List.getLast?_concat]

theorem runOps_invariant :
    ∀ (ops : List CatalogOp) (s : DB),
      (s.snapshots.map (·.snapshot_id) =
        (List.range s.snapshots.length).map (fun (i : Nat) => (i : Int) + 1)) →
      List.Chain' (· ≤ ·) (s.snapshots.map (·.next_catalog_id)) →
      List.Chain' (· ≤ ·) (s.snapshots.map (·.next_file_id)) →
      ReadQueries.latestSnapshot s = s.snapshots.getLast? →
      ((runOps s ops).snapshots.map (·.snapshot_id) =
        (List.range (runOps s ops).snapshots.length).map
          (fun (i : Nat) => (i : Int) + 1)) ∧
      List.Chain' (· ≤ ·) ((runOps s ops).snapshots.map (·.next_catalog_id)) ∧
      List.Chain' (· ≤ ·) ((runOps s ops).snapshots.map (·.next_file_id)) ∧
      ReadQueries.latestSnapshot (runOps s ops) =
        (runOps s ops).snapshots.getLast? := by
  intro ops
  induction ops with
  | nil => intro s h1 h2 h3 h4; exact ⟨h1, h2, h3, h4⟩
  | cons op ops ih =>
    intro s h1 h2 h3 h4
    obtain ⟨g1, g2, g3, g4⟩ := inv_step s op h1 h2 h3 h4
    exact ih (applyOp s op) g1 g2 g3 g4

theorem runOps_snap_length :
    ∀ (ops : List CatalogOp) (s : DB),
      (runOps s ops).snapshots.length = s.snapshots.length + ops.length := by
  intro ops
  induction ops with
  | nil => intro s; rfl
  | cons op ops ih =>
    intro s
    obtain ⟨w, fw, hsnap, _, _⟩ := applyOp_step s op
    show (runOps (applyOp s op) ops).snapshots.length = _
    rw [ih (applyOp s op), hsnap, List.length_append]
    simp only [List.length_cons, List.length_nil]
    omega

/-- C4: for every serialized sequence of N commits against the initially
empty catalog, the recorded snapshot ids are exactly `1, 2, ..., N` in
commit order, the `next_catalog_id` and `next_file_id` watermarks recorded
across the sequence are non-decreasing, and each single commit appends one
snapshot whose id is 1 plus the maximum existing snapshot id (so 1 on an
empty catalog, where the maximum defaults to 0). -/
theorem serialized_commits_monotonic (ops : List CatalogOp) :
    ((runOps DB.empty ops).snapshots.map (·.snapshot_id) =
      (List.range ops.length).map (fun (i : Nat) => (i : Int) + 1)) ∧
    List.Chain' (· ≤ ·)
      ((runOps DB.empty ops).snapshots.map (·.next_catalog_id)) ∧
    List.Chain' (· ≤ ·)
      ((runOps DB.empty ops).snapshots.map (·.next_file_id)) ∧
    (∀ (s : DB) (op : CatalogOp),
      (applyOp s op).snapshots.map (·.snapshot_id) =
        s.snapshots.map (·.snapshot_id) ++
          [ReadQueries.get_max_snapshot_id s + 1]) := by
  obtain ⟨g1, g2, g3, _⟩ := runOps_invariant ops DB.empty rfl
    List.chain'_nil List.chain'_nil rfl
  refine ⟨?_, g2, g3, ?_⟩
  · rw [g1, runOps_snap_length]
    rw [show DB.empty.snapshots.length = 0 from rfl, Nat.zero_add]
  · intro s op
    obtain ⟨w, fw, hsnap, _, _⟩ := applyOp_step s op
    rw [hsnap, List.map_append]
    rfl

/-! Lemmas for the roll-up claim. -/

theorem sumRecords_cons (r : FileReg) (regs : List FileReg) :
    sumRecords (r :: regs) = r.record_count + sumRecords regs := by
  simp [sumRecords]

theorem sumSizes_cons (r : FileReg) (regs : List FileReg) :
    sumSizes (r :: regs) = r.file_size_bytes + sumSizes regs := by
  simp [sumSizes]

theorem upsert_stats_some (l : List TableStatsRow) (t rc fs R F : Int)
    (h : findTableStats l t = some ⟨t, R, R, F⟩) :
    findTableStats (WriteQueries.upsertTableStats l t rc fs) t =
      some ⟨t, R + rc, R + rc, F + fs⟩ := by
  have hany : l.any (fun r => r.table_id == t) = true := by
    rw [List.any_eq_true]
    refine ⟨⟨t, R, R, F⟩, List.mem_of_find?_eq_some h, ?_⟩
    simp
  unfold WriteQueries.upsertTableStats
  rw [if_pos hany]
  unfold findTableStats
  rw [List.find?_map]
  have hpe : ((fun r : TableStatsRow => r.table_id == t) ∘
      (fun r : TableStatsRow =>
        if r.table_id == t then
          { r with record_count := r.record_count + rc,
                   next_row_id := r.next_row_id + rc,
                   file_size_bytes := r.file_size_bytes + fs }
        else r)) = (fun r : TableStatsRow => r.table_id == t) := by
    funext r
    by_cases hr : r.table_id = t
    · simp [hr]
    · simp [hr]
  rw [hpe]
  unfold findTableStats at h
  rw [h]
  simp

theorem upsert_stats_none (l : List TableStatsRow) (t rc fs : Int)
    (h : findTableStats l t = none) :
    findTableStats (WriteQueries.upsertTableStats l t rc fs) t =
      some ⟨t, rc, rc, fs⟩ := by
  have hany : l.any (fun r => r.table_id == t) = false := by
    rw [List.any_eq_false]
    intro r hr
    intro hp
    have hsome : (l.find? (fun r => r.table_id == t)).isSome =
        true := List.find?_isSome.mpr ⟨r, hr, hp⟩
    unfold findTableStats at h
    rw [h] at hsome
    simp at hsome
  unfold WriteQueries.upsertTableStats
  rw [if_neg (by rw [hany]; exact Bool.false_ne_true)]
  unfold findTableStats
  rw [List.find?_append]
  unfold findTableStats at h
  rw [h]
  simp

theorem findTCS_upsert_other (l : List TableColStatsRow)
    (t c cOther nc nanc : Int) (minv maxv : Option String)
    (hcc : cOther ≠ c) :
    findTableColStats
        (WriteQueries.upsertTableColStats l t cOther nc nanc minv maxv) t c =
      findTableColStats l t c := by
  unfold WriteQueries.upsertTableColStats
  by_cases hany : l.any (fun r => r.table_id == t && r.column_id == cOther)
  · rw [if_pos hany]
    unfold findTableColStats
    rw [List.find?_map]
    have hpe : ((fun r : TableColStatsRow =>
        r.table_id == t && r.column_id == c) ∘
        (fun r : TableColStatsRow =>
          if r.table_id == t && r.column_id == cOther then
            { r with null_count := r.null_count + nc,
                     nan_count := r.nan_count + nanc,
                     min_value := WriteQueries.mergeMin r.min_value minv,
                     max_value := WriteQueries.mergeMax r.max_value maxv }
          else r)) =
        (fun r : TableColStatsRow => r.table_id == t && r.column_id == c) := by
      funext r
      by_cases h1 : r.table_id = t
      · by_cases h2 : r.column_id = cOther
        · simp [h1, h2]
        · simp [h1, h2]
      · simp [h1]
    rw [hpe]
    cases hf : l.find? (fun r => r.table_id == t && r.column_id == c) with
    | none => rfl
    | some r =>
      have hp := List.find?_some hf
      simp only [Bool.and_eq_true, beq_iff_eq] at hp
      simp [hp.1, hp.2]
      exact fun h => absurd h.symm hcc
  · rw [if_neg hany]
    unfold findTableColStats
    rw [List.find?_append]
    have hnew : ([(⟨t, cOther, nc, nanc, minv, maxv⟩ :
        TableColStatsRow)].find?
          (fun r => r.table_id == t && r.column_id == c)) = none := by
      simp [hcc]
    rw [hnew]
    simp

theorem findTCS_upsert_same (l : List TableColStatsRow) (t c : Int)
    (st : FileColumnStatistics) (hst : st.column_id = c) :
    findTableColStats
        (WriteQueries.upsertTableColStats l t st.column_id st.null_count
          st.nan_count st.min_value st.max_value) t c =
      some (mergeStatRow t c (findTableColStats l t c) st) := by
  subst hst
  unfold WriteQueries.upsertTableColStats
  by_cases hany : l.any
      (fun r => r.table_id == t && r.column_id == st.column_id)
  · rw [if_pos hany]
    unfold findTableColStats
    rw [List.find?_map]
    have hpe : ((fun r : TableColStatsRow =>
        r.table_id == t && r.column_id == st.column_id) ∘
        (fun r : TableColStatsRow =>
          if r.table_id == t && r.column_id == st.column_id then
            { r with null_count := r.null_count + st.null_count,
                     nan_count := r.nan_count + st.nan_count,
                     min_value := WriteQueries.mergeMin r.min_value
                       st.min_value,
                     max_value := WriteQueries.mergeMax r.max_value
                       st.max_value }
          else r)) =
        (fun r : TableColStatsRow =>
          r.table_id == t && r.column_id == st.column_id) := by
      funext r
      by_cases h1 : r.table_id = t
      · by_cases h2 : r.column_id = st.column_id
        · simp [h1, h2]
        · simp [h1, h2]
      · simp [h1]
    rw [hpe]
    rcases hany2 : l.any
        (fun r => r.table_id == t && r.column_id == st.column_id) with _ | _
    · rw [hany2] at hany; cases hany
    · obtain ⟨r, hr, hp⟩ := List.any_eq_true.mp hany2
      rcases hf : l.find?
          (fun r => r.table_id == t && r.column_id == st.column_id) with
          _ | r0
      · have hsome : (l.find?
            (fun r => r.table_id == t &&
              r.column_id == st.column_id)).isSome = true :=
          List.find?_isSome.mpr ⟨r, hr, hp⟩
        rw [hf] at hsome
        cases hsome
      · have hp0 := List.find?_some hf
        simp only [Bool.and_eq_true, beq_iff_eq] at hp0
        rw [hf]
        unfold mergeStatRow
        simp [hp0.1, hp0.2]
  · rw [if_neg hany]
    have hnone : findTableColStats l t st.column_id = none := by
      unfold findTableColStats
      rcases hf : l.find?
          (fun r => r.table_id == t && r.column_id == st.column_id) with
          _ | r0
      · exact hf
      · have hmem := List.mem_of_find?_eq_some hf
        have hp := List.find?_some hf
        rw [Bool.not_eq_true] at hany
        rw [List.any_eq_false] at hany
        exact absurd hp (hany r0 hmem)
    rw [hnone]
    unfold findTableColStats
    rw [List.find?_append]
    have h0 : findTableColStats l t st.column_id = none := hnone
    unfold findTableColStats at h0
    rw [h0]
    unfold mergeStatRow
    simp

theorem findTCS_stats_fold (t c : Int) (stats : List FileColumnStatistics) :
    ∀ (l : List TableColStatsRow),
      findTableColStats
          (stats.foldl
            (fun l st => WriteQueries.upsertTableColStats l t st.column_id
              st.null_count st.nan_count st.min_value st.max_value)
            l) t c =
        (stats.filter (fun st => st.column_id == c)).foldl
          (fun o st => some (mergeStatRow t c o st))
          (findTableColStats l t c) := by
  induction stats with
  | nil => intro l; rfl
  | cons st rest ih =>
    intro l
    simp only [List.foldl_cons]
    by_cases hc : st.column_id = c
    · rw [show (st :: rest).filter (fun st => st.column_id == c) =
          st :: rest.filter (fun st => st.column_id == c) by
            rw [List.filter_cons_of_pos]; simp [hc]]
      simp only [List.foldl_cons]
      rw [ih, findTCS_upsert_same l t c st hc]
    · rw [show (st :: rest).filter (fun st => st.column_id == c) =
          rest.filter (fun st => st.column_id == c) by
            rw [List.filter_cons_of_neg]; simp [hc]]
      rw [ih, findTCS_upsert_other l t c st.column_id st.null_count
        st.nan_count st.min_value st.max_value hc]

theorem fold_merge_rowMin (t c : Int) (entries : List FileColumnStatistics) :
    ∀ (o : Option TableColStatsRow),
      rowMin (entries.foldl (fun o st => some (mergeStatRow t c o st)) o) =
        entries.foldl
          (fun m st => WriteQueries.mergeMin m st.min_value) (rowMin o) := by
  induction entries with
  | nil => intro o; rfl
  | cons st rest ih =>
    intro o
    simp only [List.foldl_cons]
    rw [ih]
    have hstep : rowMin (some (mergeStatRow t c o st)) =
        WriteQueries.mergeMin (rowMin o) st.min_value := by
      cases o with
      | none =>
        unfold rowMin mergeStatRow WriteQueries.mergeMin
        cases st.min_value <;> rfl
      | some r => rfl
    rw [hstep]

theorem fold_merge_rowMax (t c : Int) (entries : List FileColumnStatistics) :
    ∀ (o : Option TableColStatsRow),
      rowMax (entries.foldl (fun o st => some (mergeStatRow t c o st)) o) =
        entries.foldl
          (fun m st => WriteQueries.mergeMax m st.max_value) (rowMax o) := by
  induction entries with
  | nil => intro o; rfl
  | cons st rest ih =>
    intro o
    simp only [List.foldl_cons]
    rw [ih]
    have hstep : rowMax (some (mergeStatRow t c o st)) =
        WriteQueries.mergeMax (rowMax o) st.max_value := by
      cases o with
      | none =>
        unfold rowMax mergeStatRow WriteQueries.mergeMax
        cases st.max_value <;> rfl
      | some r => rfl
    rw [hstep]

theorem fold_mergeMin_some (ms : List String) :
    ∀ acc : String,
      ms.foldl (fun m v => WriteQueries.mergeMin m (some v)) (some acc) =
        some (ms.foldl min acc) := by
  induction ms with
  | nil => intro acc; rfl
  | cons v vs ih =>
    intro acc
    simp only [List.foldl_cons]
    rw [show WriteQueries.mergeMin (some acc) (some v) =
        some (min acc v) from rfl]
    exact ih (min acc v)

theorem fold_mergeMax_some (ms : List String) :
    ∀ acc : String,
      ms.foldl (fun m v => WriteQueries.mergeMax m (some v)) (some acc) =
        some (ms.foldl max acc) := by
  induction ms with
  | nil => intro acc; rfl
  | cons v vs ih =>
    intro acc
    simp only [List.foldl_cons]
    rw [show WriteQueries.mergeMax (some acc) (some v) =
        some (max acc v) from rfl]
    exact ih (max acc v)

theorem fold_mergeMin_entries (entries : List FileColumnStatistics)
    (mins : List String)
    (hm : entries.map (·.min_value) = mins.map some) :
    entries.foldl (fun m st => WriteQueries.mergeMin m st.min_value) none =
      mins.min? := by
  have h1 : entries.foldl
      (fun m st => WriteQueries.mergeMin m st.min_value) none =
      (entries.map (·.min_value)).foldl WriteQueries.mergeMin none := by
    rw [List.foldl_map]
  rw [h1, hm, List.foldl_map]
  cases mins with
  | nil => rfl
  | cons m ms =>
    simp only [List.foldl_cons]
    rw [show WriteQueries.mergeMin none (some m) = some m from rfl]
    rw [fold_mergeMin_some, List.min?_cons']

theorem fold_mergeMax_entries (entries : List FileColumnStatistics)
    (maxs : List String)
    (hm : entries.map (·.max_value) = maxs.map some) :
    entries.foldl (fun m st => WriteQueries.mergeMax m st.max_value) none =
      maxs.max? := by
  have h1 : entries.foldl
      (fun m st => WriteQueries.mergeMax m st.max_value) none =
      (entries.map (·.max_value)).foldl WriteQueries.mergeMax none := by
    rw [List.foldl_map]
  rw [h1, hm, List.foldl_map]
  cases maxs with
  | nil => rfl
  | cons m ms =>
    simp only [List.foldl_cons]
    rw [show WriteQueries.mergeMax none (some m) = some m from rfl]
    rw [fold_mergeMax_some, List.max?_cons']

theorem insertFiles_spec (t : Int) (regs : List FileReg) :
    ∀ (s : DB) (R F : Int),
      findTableStats s.tableStats t = some ⟨t, R, R, F⟩ →
      (findTableStats (insertFiles s t regs).tableStats t =
        some ⟨t, R + sumRecords regs, R + sumRecords regs,
          F + sumSizes regs⟩) ∧
      ((insertFiles s t regs).dataFiles =
        s.dataFiles ++ expectedFileRows t (ReadQueries.get_max_snapshot_id s)
          (fileWatermark s) R regs) ∧
      (∀ c : Int,
        findTableColStats (insertFiles s t regs).tableColStats t c =
          (colEntries c regs).foldl (fun o st => some (mergeStatRow t c o st))
            (findTableColStats s.tableColStats t c)) := by
  induction regs with
  | nil =>
    intro s R F hfind
    refine ⟨?_, ?_, ?_⟩
    · simp only [insertFiles, List.foldl_nil, sumRecords, sumSizes,
        List.map_nil, List.sum_nil, add_zero]
      exact hfind
    · simp [insertFiles, expectedFileRows]
    · intro c
      simp [insertFiles, colEntries]
  | cons r rest ih =>
    intro s R F hfind
    have hstep : insertFiles s t (r :: rest) =
        insertFiles (DuckLake.insert_data_file_tx s t r.file_path
          r.record_count r.file_size_bytes r.stats) t rest := rfl
    have htx := insert_data_file_tx_def s t r.file_path r.record_count
      r.file_size_bytes r.stats
    have hrid : (ReadQueries.get_table_next_row_id s t).getD 0 = R := by
      unfold ReadQueries.get_table_next_row_id
      unfold findTableStats at hfind
      rw [hfind]
      rfl
    have hfind1 : findTableStats (DuckLake.insert_data_file_tx s t
        r.file_path r.record_count r.file_size_bytes r.stats).tableStats t =
        some ⟨t, R + r.record_count, R + r.record_count,
          F + r.file_size_bytes⟩ := by
      rw [htx]
      exact upsert_stats_some s.tableStats t r.record_count r.file_size_bytes
        R F hfind
    have hlesnap : ∀ x ∈ s.snapshots, x.snapshot_id ≤
        ReadQueries.get_max_snapshot_id s + 1 :=
      fun x hx => (snapshot_id_le_max s x hx).trans (by omega)
    have hmax1 : ReadQueries.get_max_snapshot_id (DuckLake.insert_data_file_tx
        s t r.file_path r.record_count r.file_size_bytes r.stats) =
        ReadQueries.get_max_snapshot_id s + 1 := by
      rw [get_max_snapshot_id_snapshots s _
        (⟨ReadQueries.get_max_snapshot_id s + 1,
          ReadQueries.get_max_snapshot_id s + 1, catalogWatermark s,
          fileWatermark s + 1⟩ : SnapshotRow) (by rw [htx])
        (by show (0:Int) ≤ ReadQueries.get_max_snapshot_id s + 1
            have := max_snapshot_nonneg s; omega)]
      exact max_eq_right
        (by show ReadQueries.get_max_snapshot_id s ≤
              ReadQueries.get_max_snapshot_id s + 1
            omega)
    have hfw1 : fileWatermark (DuckLake.insert_data_file_tx s t r.file_path
        r.record_count r.file_size_bytes r.stats) = fileWatermark s + 1 :=
      fileWatermark_append s _
        (⟨ReadQueries.get_max_snapshot_id s + 1,
          ReadQueries.get_max_snapshot_id s + 1, catalogWatermark s,
          fileWatermark s + 1⟩ : SnapshotRow) (by rw [htx]) hlesnap
    obtain ⟨c1, c2, c3⟩ := ih (DuckLake.insert_data_file_tx s t r.file_path
      r.record_count r.file_size_bytes r.stats)
      (R + r.record_count) (F + r.file_size_bytes) hfind1
    refine ⟨?_, ?_, ?_⟩
    · rw [hstep, c1, sumRecords_cons, sumSizes_cons]
      rw [add_assoc, add_assoc]
    · rw [hstep, c2, hmax1, hfw1,
        show (DuckLake.insert_data_file_tx s t r.file_path r.record_count
          r.file_size_bytes r.stats).dataFiles = _ from
          congrArg DB.dataFiles htx,
        List.append_assoc, hrid]
      refine congrArg _ ?_
      rw [List.singleton_append]
      rfl
    · intro c
      rw [hstep, c3]
      have htcs1 : findTableColStats (DuckLake.insert_data_file_tx s t
          r.file_path r.record_count r.file_size_bytes r.stats).tableColStats
          t c =
          (r.stats.filter (fun st => st.column_id == c)).foldl
            (fun o st => some (mergeStatRow t c o st))
            (findTableColStats s.tableColStats t c) := by
        rw [show (DuckLake.insert_data_file_tx s t r.file_path r.record_count
          r.file_size_bytes r.stats).tableColStats = _ from
          congrArg DB.tableColStats htx]
        exact findTCS_stats_fold t c r.stats s.tableColStats
      rw [htcs1]
      rw [show colEntries c (r :: rest) =
        r.stats.filter (fun st => st.column_id == c) ++ colEntries c rest from
        by simp [colEntries]]
      rw [List.foldl_append]

theorem fold_merge_isSome (t c : Int) (es : List FileColumnStatistics) :
    ∀ (x : TableColStatsRow),
      ∃ row, es.foldl (fun o st => some (mergeStatRow t c o st)) (some x) =
        some row := by
  induction es with
  | nil => intro x; exact ⟨x, rfl⟩
  | cons e es ih =>
    intro x
    simp only [List.foldl_cons]
    exact ih (mergeStatRow t c (some x) e)

theorem expectedFileRows_row_id_start (t : Int) (regs : List FileReg) :
    ∀ (μ φ R : Int),
      (expectedFileRows t μ φ R regs).map (·.row_id_start) =
        (List.range regs.length).map
          (fun (i : Nat) => R + sumRecords (regs.take i)) := by
  induction regs with
  | nil => intro μ φ R; rfl
  | cons r rest ih =>
    intro μ φ R
    show (⟨φ, t, μ + 1, none, r.file_path, true, "parquet", r.record_count,
        r.file_size_bytes, some 4096, R⟩ ::
        expectedFileRows t (μ + 1) (φ + 1) (R + r.record_count) rest).map
        (·.row_id_start) = _
    rw [List.map_cons, ih]
    simp only [List.length_cons]
    rw [List.range_succ_eq_map, List.map_cons, List.map_map]
    congr 1
    · simp [sumRecords]
    · refine List.map_congr_left ?_
      intro i _
      show (R + r.record_count) + sumRecords (rest.take i) =
        R + sumRecords ((r :: rest).take (i + 1))
      rw [List.take_succ_cons, sumRecords_cons]
      ring

/-- C5: after registering files F1..Fk (k ≥ 1) for a table that has no prior
roll-up row, the `TableStats` row holds `record_count` and `next_row_id`
both equal to the sum of the files' record counts and `file_size_bytes`
equal to the sum of their sizes; each created data-file row's `row_id_start`
equals the sum of the record counts of the files registered before it (0 for
the first); and for every column whose supplied file-level statistics all
carry a min and a max, the table-level aggregate row's `min_value` and
`max_value` equal the minimum and maximum across all the files' statistics
for that column. -/
theorem insert_files_rollup (s : DB) (t : Int) (regs : List FileReg)
    (hne : regs ≠ [])
    (hstats : findTableStats s.tableStats t = none) :
    (findTableStats (insertFiles s t regs).tableStats t =
      some ⟨t, sumRecords regs, sumRecords regs, sumSizes regs⟩) ∧
    ((insertFiles s t regs).dataFiles =
      s.dataFiles ++ expectedFileRows t (ReadQueries.get_max_snapshot_id s)
        (fileWatermark s) 0 regs) ∧
    ((expectedFileRows t (ReadQueries.get_max_snapshot_id s)
        (fileWatermark s) 0 regs).map (·.row_id_start) =
      (List.range regs.length).map
        (fun (i : Nat) => sumRecords (regs.take i))) ∧
    (∀ (c : Int) (mins maxs : List String),
      findTableColStats s.tableColStats t c = none →
      (colEntries c regs).map (·.min_value) = mins.map some →
      (colEntries c regs).map (·.max_value) = maxs.map some →
      mins ≠ [] →
      ∃ row, findTableColStats (insertFiles s t regs).tableColStats t c =
        some row ∧ row.min_value = mins.min? ∧ row.max_value = maxs.max?) := by
  cases regs with
  | nil => exact absurd rfl hne
  | cons r rest =>
  have hstep : insertFiles s t (r :: rest) =
      insertFiles (DuckLake.insert_data_file_tx s t r.file_path
        r.record_count r.file_size_bytes r.stats) t rest := rfl
  have htx := insert_data_file_tx_def s t r.file_path r.record_count
    r.file_size_bytes r.stats
  have hrid : (ReadQueries.get_table_next_row_id s t).getD 0 = 0 := by
    unfold ReadQueries.get_table_next_row_id
    unfold findTableStats at hstats
    rw [hstats]
    rfl
  have hfind1 : findTableStats (DuckLake.insert_data_file_tx s t
      r.file_path r.record_count r.file_size_bytes r.stats).tableStats t =
      some ⟨t, r.record_count, r.record_count, r.file_size_bytes⟩ := by
    rw [htx]
    exact upsert_stats_none s.tableStats t r.record_count r.file_size_bytes
      hstats
  have hlesnap : ∀ x ∈ s.snapshots, x.snapshot_id ≤
      ReadQueries.get_max_snapshot_id s + 1 :=
    fun x hx => (snapshot_id_le_max s x hx).trans (by omega)
  have hmax1 : ReadQueries.get_max_snapshot_id (DuckLake.insert_data_file_tx
      s t r.file_path r.record_count r.file_size_bytes r.stats) =
      ReadQueries.get_max_snapshot_id s + 1 := by
    rw [get_max_snapshot_id_snapshots s _
      (⟨ReadQueries.get_max_snapshot_id s + 1,
        ReadQueries.get_max_snapshot_id s + 1, catalogWatermark s,
        fileWatermark s + 1⟩ : SnapshotRow) (by rw [htx])
      (by show (0:Int) ≤ ReadQueries.get_max_snapshot_id s + 1
          have := max_snapshot_nonneg s; omega)]
    exact max_eq_right
      (by show ReadQueries.get_max_snapshot_id s ≤
            ReadQueries.get_max_snapshot_id s + 1
          omega)
  have hfw1 : fileWatermark (DuckLake.insert_data_file_tx s t r.file_path
      r.record_count r.file_size_bytes r.stats) = fileWatermark s + 1 :=
    fileWatermark_append s _
      (⟨ReadQueries.get_max_snapshot_id s + 1,
        ReadQueries.get_max_snapshot_id s + 1, catalogWatermark s,
        fileWatermark s + 1⟩ : SnapshotRow) (by rw [htx]) hlesnap
  obtain ⟨c1, c2, c3⟩ := insertFiles_spec t rest
    (DuckLake.insert_data_file_tx s t r.file_path r.record_count
      r.file_size_bytes r.stats) r.record_count r.file_size_bytes hfind1
  have hfold : ∀ c : Int,
      findTableColStats (insertFiles s t (r :: rest)).tableColStats t c =
        (colEntries c (r :: rest)).foldl
          (fun o st => some (mergeStatRow t c o st))
          (findTableColStats s.tableColStats t c) := by
    intro c
    rw [hstep, c3]
    have htcs1 : findTableColStats (DuckLake.insert_data_file_tx s t
        r.file_path r.record_count r.file_size_bytes r.stats).tableColStats
        t c =
        (r.stats.filter (fun st => st.column_id == c)).foldl
          (fun o st => some (mergeStatRow t c o st))
          (findTableColStats s.tableColStats t c) := by
      rw [show (DuckLake.insert_data_file_tx s t r.file_path r.record_count
        r.file_size_bytes r.stats).tableColStats = _ from
        congrArg DB.tableColStats htx]
      exact findTCS_stats_fold t c r.stats s.tableColStats
    rw [htcs1]
    rw [show colEntries c (r :: rest) =
      r.stats.filter (fun st => st.column_id == c) ++ colEntries c rest from
      by simp [colEntries]]
    rw [List.foldl_append]
  refine ⟨?_, ?_, ?_, ?_⟩
  · rw [hstep, c1, sumRecords_cons, sumSizes_cons]
  · rw [hstep, c2, hmax1, hfw1,
      show (DuckLake.insert_data_file_tx s t r.file_path r.record_count
        r.file_size_bytes r.stats).dataFiles = _ from
        congrArg DB.dataFiles htx,
      List.append_assoc, hrid]
    refine congrArg _ ?_
    rw [List.singleton_append,
      show expectedFileRows t (ReadQueries.get_max_snapshot_id s)
        (fileWatermark s) 0 (r :: rest) =
        ⟨fileWatermark s, t, ReadQueries.get_max_snapshot_id s + 1, none,
          r.file_path, true, "parquet", r.record_count, r.file_size_bytes,
          some 4096, 0⟩ ::
        expectedFileRows t (ReadQueries.get_max_snapshot_id s + 1)
          (fileWatermark s + 1) (0 + r.record_count) rest from rfl,
      zero_add]
  · rw [expectedFileRows_row_id_start]
    refine List.map_congr_left ?_
    intro i _
    rw [zero_add]
  · intro c mins maxs htcs0 hm hM hne2
    have hf := hfold c
    rw [htcs0] at hf
    have hEne : colEntries c (r :: rest) ≠ [] := by
      intro hnil
      rw [hnil] at hm
      have : mins.map some = ([] : List (Option String)) := hm.symm
      rw [List.map_eq_nil_iff] at this
      exact hne2 this
    rcases hE : colEntries c (r :: rest) with _ | ⟨e, es⟩
    · exact absurd hE hEne
    · rw [hE] at hf
      simp only [List.foldl_cons] at hf
      obtain ⟨row, hrow⟩ := fold_merge_isSome t c es (mergeStatRow t c none e)
      rw [hrow] at hf
      have hfull : (e :: es).foldl
          (fun o st => some (mergeStatRow t c o st)) none = some row := by
        simp only [List.foldl_cons]
        exact hrow
      have hm' : (e :: es).map (·.min_value) = mins.map some := hE ▸ hm
      have hM' : (e :: es).map (·.max_value) = maxs.map some := hE ▸ hM
      refine ⟨row, hf, ?_, ?_⟩
      · have h1 : rowMin (some row) = mins.min? := by
          rw [← hfull, fold_merge_rowMin,
            show rowMin none = (none : Option String) from rfl]
          exact fold_mergeMin_entries (e :: es) mins hm'
        exact h1
      · have h1 : rowMax (some row) = maxs.max? := by
          rw [← hfull, fold_merge_rowMax,
            show rowMax none = (none : Option String) from rfl]
          exact fold_mergeMax_entries (e :: es) maxs hM'
        exact h1

/-- Witness for the roll-up theorem at a concrete input: the two `demoRegs`
registrations against the empty catalog produce the roll-up row
`(12, 12, 300)` for table 1, and a column-1 aggregate whose min/max are the
minimum/maximum of `["b", "a"]` and `["b", "c"]`. -/
theorem insert_files_rollup_witness :
    findTableStats (insertFiles DB.empty 1 demoRegs).tableStats 1 =
      some ⟨1, 12, 12, 300⟩ ∧
    (∃ row, findTableColStats (insertFiles DB.empty 1 demoRegs).tableColStats
        1 1 = some row ∧
      row.min_value = (["b", "a"] : List String).min? ∧
      row.max_value = (["b", "c"] : List String).max?) := by
  obtain ⟨c1, _, _, c4⟩ := insert_files_rollup DB.empty 1 demoRegs
    (by decide) rfl
  refine ⟨c1.trans (by decide), ?_⟩
  exact c4 1 ["b", "a"] ["b", "c"] rfl (by decide) (by decide) (by decide)
